import Mathlib

/-! # Discount-code service of go-shopify (`discount_code.go`)

A shallow embedding of `DiscountCodeServiceOp` and its seven methods.  The
shared `*Client`, the `Link`-header parser and the Go standard library live
outside `discount_code.go`; the client is a parameter of every operation, so
each theorem holds for every client.
-/

namespace GoShopify

/-! ## `fmt.Sprintf` with the `%d` verb -/

/-- Decimal text of a Go integer as the `%d` verb prints it: a minus sign for a
negative value, then the decimal digits of the magnitude. -/
def formatInt (i : Int) : List Char :=
  if i < 0 then '-' :: Nat.toDigits 10 i.natAbs else Nat.toDigits 10 i.natAbs

/-- Text `fmt` appends for operands that no verb consumed:
`%!(EXTRA int64=1, int64=2)`. -/
def extraArgs : List Int → List Char
  | [] => []
  | a :: as =>
    "%!(EXTRA ".toList ++ "int64=".toList ++ formatInt a ++
      (as.map (fun x => ", int64=".toList ++ formatInt x)).flatten ++ [')']

/-- The scan loop of `fmt.Sprintf` over a format whose only verb is `%d`, with
`int64` operands: each `%d` consumes the next operand (`%!d(MISSING)` when none
is left), every other character is copied, a lone `%` that ends the format
prints `%!(NOVERB)`, and unused operands are reported at the end. -/
def doPrintf : List Char → List Int → List Char
  | [], args => extraArgs args
  | [c], args => (if c = '%' then "%!(NOVERB)".toList else [c]) ++ extraArgs args
  | c :: d :: rest, args =>
    if c = '%' ∧ d = 'd' then
      match args with
      | a :: as => formatInt a ++ doPrintf rest as
      | [] => "%!d(MISSING)".toList ++ doPrintf rest []
    else c :: doPrintf (d :: rest) args

/-- Go's `fmt.Sprintf(format, args...)` for `%d` formats and `int64` operands. -/
def Sprintf (format : String) (args : List Int) : String :=
  ⟨doPrintf format.data args⟩

/-- The value of a decimal digit character. -/
def digitVal (c : Char) : Nat := c.toNat - 48

/-- The number a list of decimal digits denotes, most significant digit first. -/
def ofDigits (l : List Char) : Nat := l.foldl (fun a c => 10 * a + digitVal c) 0

/-- A character that `%d` can print: a decimal digit or the minus sign. -/
def isNumeric (c : Char) : Prop := c = '-' ∨ ('0' ≤ c ∧ c ≤ '9')

/-- The decimal text of an integer, as a string. -/
def decimal (i : Int) : String := ⟨formatInt i⟩

/-- The constant `discountCodeBasePath = "price_rules/%d/discount_codes"`. -/
def discountCodeBasePath : String := "price_rules/%d/discount_codes"

/-! ## Data model -/

/-- A `time.Time`: the instant as seconds and nanoseconds since January 1, 1970
UTC (what `t.Unix()` and `t.Nanosecond()` return) and the offset, in seconds
east of UTC, of the zone in effect at that instant in the time's location
(what `t.Zone()` returns). -/
structure Time where
  sec : Int
  nsec : Fin 1000000000
  offset : Int
  deriving DecidableEq, Repr

/-- The civil date (year, month, day) of a day number counted from January 1,
1970, in the proleptic Gregorian calendar. -/
def civilFromDays (days : Int) : Int × Int × Int :=
  let z := days + 719468
  let era := z / 146097
  let doe := z % 146097
  let yoe := (doe - doe / 1460 + doe / 36524 - doe / 146096) / 365
  let doy := doe - (365 * yoe + yoe / 4 - yoe / 100)
  let mp := (5 * doy + 2) / 153
  let d := doy - (153 * mp + 2) / 5 + 1
  let m := if mp < 10 then mp + 3 else mp - 9
  (yoe + era * 400 + (if m ≤ 2 then 1 else 0), m, d)

/-- The date `t.Date()` presents: the civil date in the time's location. -/
def Time.Date (t : Time) : Int × Int × Int :=
  civilFromDays ((t.sec + t.offset) / 86400)

/-- The year `t.Year()` presents. -/
def Time.Year (t : Time) : Int := t.Date.1

/-- The helper `appendInt` of package `time`: the decimal text of `x`, padded
with zeros to `width` digits, after a minus sign when `x` is negative. -/
def appendInt (x : Int) (width : Nat) : List Char :=
  let digits := Nat.toDigits 10 x.natAbs
  (if x < 0 then ['-'] else []) ++ List.replicate (width - digits.length) '0' ++ digits

/-- The helper `formatNano` of package `time` for the layout `.999999999`: the
nine-digit fraction without its trailing zeros, nothing when it is zero. -/
def formatNano (nanosec : Nat) : List Char :=
  let digits := ((appendInt nanosec 9).reverse.dropWhile (fun c => c = '0')).reverse
  if digits.isEmpty then [] else '.' :: digits

/-- The zone suffix of the layout `Z07:00`: `Z` for the offset zero, otherwise
the sign and the offset in hours and minutes. -/
def formatZone (offset : Int) : List Char :=
  if offset = 0 then ['Z']
  else
    let zone : Nat := offset.natAbs / 60
    (if offset ≤ -60 then ['-'] else ['+']) ++
      appendInt (zone / 60 : Nat) 2 ++ [':'] ++ appendInt (zone % 60 : Nat) 2

/-- The text of `t.Format(time.RFC3339Nano)`, layout
`2006-01-02T15:04:05.999999999Z07:00`. -/
def Time.formatRFC3339Nano (t : Time) : List Char :=
  let date := t.Date
  let s := (t.sec + t.offset) % 86400
  appendInt date.1 4 ++ ['-'] ++ appendInt date.2.1 2 ++ ['-'] ++ appendInt date.2.2 2 ++
    ['T'] ++ appendInt (s / 3600) 2 ++ [':'] ++ appendInt (s % 3600 / 60) 2 ++ [':'] ++
    appendInt (s % 60) 2 ++ formatNano t.nsec ++ formatZone t.offset

/-- The errors of `Time.MarshalJSON`. -/
inductive MarshalError where
  | yearOutOfRange
  | zoneHourOutOfRange
  deriving DecidableEq, Repr

/-- The method `Time.MarshalJSON`: the quoted RFC 3339 text of the time, or an
error when the year is outside `[0,9999]` or (since Go 1.20) the zone offset is
24 hours or more. -/
def Time.MarshalJSON (t : Time) : Except MarshalError String :=
  if t.Year < 0 ∨ 10000 ≤ t.Year then .error .yearOutOfRange
  else if t.offset ≠ 0 ∧ 24 ≤ t.offset.natAbs / 3600 then .error .zoneHourOutOfRange
  else .ok ⟨'"' :: t.formatRFC3339Nano ++ ['"']⟩

/-- A Go slice `[]T`, held as the list of its elements; the nil slice is `[]`. -/
abbrev Slice (α : Type) : Type := List α

/-- PriceRuleDiscountCode represents a Shopify discount code.  `*time.Time`
fields are `Option`s (`none` is the nil pointer). -/
structure PriceRuleDiscountCode where
  ID : Int
  PriceRuleID : Int
  Code : String
  UsageCount : Int
  CreatedAt : Option Time
  UpdatedAt : Option Time
  deriving DecidableEq, Repr

/-- DiscountCodesResource is the result from the `discount_codes.json`
endpoint; the nil slice is the empty list. -/
structure DiscountCodesResource where
  DiscountCodes : Slice PriceRuleDiscountCode
  deriving DecidableEq, Repr

/-- DiscountCodeResource is the result from the `discount_codes/X.json`
endpoint; the field is a pointer, `none` when nil. -/
structure DiscountCodeResource where
  PriceRuleDiscountCode : Option PriceRuleDiscountCode
  deriving DecidableEq, Repr

/-- The dynamic type of the `resource interface{}` pointer handed to the client:
`*DiscountCodeResource` or `*DiscountCodesResource`. -/
inductive ResourceType where
  | discountCode
  | discountCodes
  deriving DecidableEq, Repr

/-- The struct a resource pointer of the given dynamic type points to. -/
def ResourceType.carrier : ResourceType → Type
  | .discountCode => DiscountCodeResource
  | .discountCodes => DiscountCodesResource

/-- The value of `new(DiscountCodeResource)`: the zero value, a nil pointer field. -/
def newDiscountCodeResource : DiscountCodeResource := ⟨none⟩

/-- The value of `new(DiscountCodesResource)`: the zero value, a nil slice. -/
def newDiscountCodesResource : DiscountCodesResource := ⟨[]⟩

/-- An `http.Header`: the values stored under each (canonical) key, `[]` for a
key that is not in the map. -/
def Header : Type := String → List String

/-- The empty map `http.Header{}`. -/
def Header.empty : Header := fun _ => []

/-- Go's `Header.Get`: the first value stored under the key, `""` when there is none.
The only key asked for here, `Link`, is already in canonical form. -/
def Header.Get (h : Header) (key : String) : String :=
  match h key with
  | [] => ""
  | v :: _ => v

/-- Modelled from the spec: the `Pagination` struct is declared outside
`discount_code.go`; the spec calls it a pair of opaque tokens "representing
next/previous page links", each of which may be absent. -/
structure Pagination where
  next : Option String
  previous : Option String
  deriving DecidableEq, Repr

/-! ## The shared client

`*Client` is defined elsewhere in the library.  It is a parameter here: a record
of the six methods `discount_code.go` calls, each a function of the client's
state `σ` (the remote shop included).  `ε` is the type of non-nil `error`
values and `ω` the type of a non-nil `options interface{}` value; `none` is
Go's `nil`.  A method that receives a resource pointer returns the struct it
left behind the pointer. -/

/-- The methods of `*Client` used by the discount-code service. -/
structure Client (ε ω σ : Type) where
  /-- Method `Get(path string, resource, options interface{}) error`. -/
  Get : String → (t : ResourceType) → t.carrier → Option ω → σ → (t.carrier × Option ε) × σ
  /-- Method `Post(path string, data, resource interface{}) error`. -/
  Post : String → Option DiscountCodeResource → (t : ResourceType) → t.carrier → σ →
    (t.carrier × Option ε) × σ
  /-- Method `Put(path string, data, resource interface{}) error`. -/
  Put : String → Option DiscountCodeResource → (t : ResourceType) → t.carrier → σ →
    (t.carrier × Option ε) × σ
  /-- Method `Delete(path string) error`. -/
  Delete : String → σ → Option ε × σ
  /-- Method `Count(path string, options interface{}) (int, error)`. -/
  Count : String → Option ω → σ → (Int × Option ε) × σ
  /-- Method `createAndDoGetHeaders(method, path string, data, options, resource interface{})
  (http.Header, error)`. -/
  createAndDoGetHeaders : String → String → Option DiscountCodeResource → Option ω →
    (t : ResourceType) → t.carrier → σ → (t.carrier × Header × Option ε) × σ

/-! ## The service methods -/

/-- DiscountCodeServiceOp handles communication with the discount code related
methods of the Shopify API. -/
structure DiscountCodeServiceOp (ε ω σ : Type) where
  client : Client ε ω σ

section Service

variable {ε ω σ : Type}

/-- Create a discount code. -/
def DiscountCodeServiceOp.Create (s : DiscountCodeServiceOp ε ω σ) (priceRuleID : Int)
    (dc : PriceRuleDiscountCode) (st : σ) : (Option PriceRuleDiscountCode × Option ε) × σ :=
  let path := Sprintf (discountCodeBasePath ++ ".json") [priceRuleID]
  let wrappedData : DiscountCodeResource := { PriceRuleDiscountCode := some dc }
  let resource := newDiscountCodeResource
  let r := s.client.Post path (some wrappedData) .discountCode resource st
  let resource : DiscountCodeResource := r.1.1
  let err := r.1.2
  ((resource.PriceRuleDiscountCode, err), r.2)

/-- Update an existing discount code. -/
def DiscountCodeServiceOp.Update (s : DiscountCodeServiceOp ε ω σ) (priceRuleID : Int)
    (dc : PriceRuleDiscountCode) (st : σ) : (Option PriceRuleDiscountCode × Option ε) × σ :=
  let path := Sprintf (discountCodeBasePath ++ "/%d.json") [priceRuleID, dc.ID]
  let wrappedData : DiscountCodeResource := { PriceRuleDiscountCode := some dc }
  let resource := newDiscountCodeResource
  let r := s.client.Put path (some wrappedData) .discountCode resource st
  let resource : DiscountCodeResource := r.1.1
  let err := r.1.2
  ((resource.PriceRuleDiscountCode, err), r.2)

/-- List of discount codes. -/
def DiscountCodeServiceOp.List (s : DiscountCodeServiceOp ε ω σ) (priceRuleID : Int) (st : σ) :
    (Slice PriceRuleDiscountCode × Option ε) × σ :=
  let path := Sprintf (discountCodeBasePath ++ ".json") [priceRuleID]
  let resource := newDiscountCodesResource
  let r := s.client.Get path .discountCodes resource none st
  let resource : DiscountCodesResource := r.1.1
  let err := r.1.2
  ((resource.DiscountCodes, err), r.2)

/-- ListWithPagination returns the collection together with the pagination read from
the `Link` response header.  `extractPagination` is defined elsewhere in the
library and is a parameter: it returns a `*Pagination` and an `error`. -/
def DiscountCodeServiceOp.ListWithPagination
    (extractPagination : String → Option Pagination × Option ε)
    (s : DiscountCodeServiceOp ε ω σ) (priceRuleID : Int) (options : Option ω) (st : σ) :
    (Slice PriceRuleDiscountCode × Option Pagination × Option ε) × σ :=
  let path := Sprintf (discountCodeBasePath ++ ".json") [priceRuleID]
  let resource := newDiscountCodesResource
  let r := s.client.createAndDoGetHeaders "GET" path none options .discountCodes resource st
  let resource : DiscountCodesResource := r.1.1
  let headers := r.1.2.1
  match r.1.2.2 with
  | some err => (([], none, some err), r.2)
  | none =>
    -- Extract pagination info from header
    let linkHeader := headers.Get "Link"
    let q := extractPagination linkHeader
    match q.2 with
    | some err => (([], none, some err), r.2)
    | none => ((resource.DiscountCodes, q.1, none), r.2)

/-- Count discount codes. -/
def DiscountCodeServiceOp.Count (s : DiscountCodeServiceOp ε ω σ) (priceRuleID : Int)
    (options : Option ω) (st : σ) : (Int × Option ε) × σ :=
  let path := Sprintf (discountCodeBasePath ++ "/count.json") [priceRuleID]
  s.client.Count path options st

/-- Get a single discount code. -/
def DiscountCodeServiceOp.Get (s : DiscountCodeServiceOp ε ω σ) (priceRuleID : Int)
    (discountCodeID : Int) (st : σ) : (Option PriceRuleDiscountCode × Option ε) × σ :=
  let path := Sprintf (discountCodeBasePath ++ "/%d.json") [priceRuleID, discountCodeID]
  let resource := newDiscountCodeResource
  let r := s.client.Get path .discountCode resource none st
  let resource : DiscountCodeResource := r.1.1
  let err := r.1.2
  ((resource.PriceRuleDiscountCode, err), r.2)

/-- Delete a discount code. -/
def DiscountCodeServiceOp.Delete (s : DiscountCodeServiceOp ε ω σ) (priceRuleID : Int)
    (discountCodeID : Int) (st : σ) : Option ε × σ :=
  s.client.Delete (Sprintf (discountCodeBasePath ++ "/%d.json") [priceRuleID, discountCodeID]) st

/-! ## Observing the calls made to the client -/

/-- One call of a client method, with the arguments the service chose. -/
inductive Request (ω : Type) where
  | Get (path : String) (resource : ResourceType) (options : Option ω)
  | Post (path : String) (data : Option DiscountCodeResource) (resource : ResourceType)
  | Put (path : String) (data : Option DiscountCodeResource) (resource : ResourceType)
  | Delete (path : String)
  | Count (path : String) (options : Option ω)
  | createAndDoGetHeaders (method path : String) (data : Option DiscountCodeResource)
      (options : Option ω) (resource : ResourceType)

/-- The same client, with a log of the calls it received next to its state:
every method answers as before and appends its call to the log. -/
def Client.traced (c : Client ε ω σ) : Client ε ω (σ × List (Request ω)) where
  Get path t resource options st :=
    let r := c.Get path t resource options st.1
    (r.1, (r.2, st.2 ++ [Request.Get path t options]))
  Post path data t resource st :=
    let r := c.Post path data t resource st.1
    (r.1, (r.2, st.2 ++ [Request.Post path data t]))
  Put path data t resource st :=
    let r := c.Put path data t resource st.1
    (r.1, (r.2, st.2 ++ [Request.Put path data t]))
  Delete path st :=
    let r := c.Delete path st.1
    (r.1, (r.2, st.2 ++ [Request.Delete path]))
  Count path options st :=
    let r := c.Count path options st.1
    (r.1, (r.2, st.2 ++ [Request.Count path options]))
  createAndDoGetHeaders method path data options t resource st :=
    let r := c.createAndDoGetHeaders method path data options t resource st.1
    (r.1, (r.2, st.2 ++ [Request.createAndDoGetHeaders method path data options t]))

end Service

/-! ## The `Link` header parser -/

/-- Modelled from the spec: `extractPagination` is defined outside
`discount_code.go`.  The spec says the `Link` header is "parsed externally" into
"a pagination cursor pair", that the operation "fails if header parsing fails
(malformed link syntax)", and that a response "with no `Link` header returns an
empty/absent cursor, not an error".  The parse of a non-empty header value is
the parameter `parseLink`. -/
def extractPagination {ε : Type} (parseLink : String → Except ε Pagination)
    (linkHeader : String) : Option Pagination × Option ε :=
  if linkHeader = "" then (some ⟨none, none⟩, none)
  else
    match parseLink linkHeader with
    | .ok pagination => (some pagination, none)
    | .error err => (none, some err)

/-! ## Concrete clients -/

/-- A client that answers every call with the same canned response: the given
error, headers and count, and, when `codes` is `some l`, the list `l` decoded
into the resource (its first element for a single-code resource); with
`codes = none` it leaves the resource as it received it. -/
def cannedClient (codes : Option (Slice PriceRuleDiscountCode)) (headers : Header)
    (err : Option String) (count : Int) : Client String Unit Unit where
  Get _ t resource _ st :=
    match t, resource, codes with
    | _, resource, none => ((resource, err), st)
    | .discountCode, _, some l => ((⟨l.head?⟩, err), st)
    | .discountCodes, _, some l => ((⟨l⟩, err), st)
  Post _ _ t resource st :=
    match t, resource, codes with
    | _, resource, none => ((resource, err), st)
    | .discountCode, _, some l => ((⟨l.head?⟩, err), st)
    | .discountCodes, _, some l => ((⟨l⟩, err), st)
  Put _ _ t resource st :=
    match t, resource, codes with
    | _, resource, none => ((resource, err), st)
    | .discountCode, _, some l => ((⟨l.head?⟩, err), st)
    | .discountCodes, _, some l => ((⟨l⟩, err), st)
  Delete _ st := (err, st)
  Count _ _ st := ((count, err), st)
  createAndDoGetHeaders _ _ _ _ t resource st :=
    match t, resource, codes with
    | _, resource, none => ((resource, headers, err), st)
    | .discountCode, _, some l => ((⟨l.head?⟩, headers, err), st)
    | .discountCodes, _, some l => ((⟨l⟩, headers, err), st)

/-- A discount code as the remote API returns it. -/
def sampleCode : PriceRuleDiscountCode :=
  { ID := 7, PriceRuleID := 42, Code := "SUMMER", UsageCount := 3,
    CreatedAt := some ⟨1546398245, 0, 0⟩, UpdatedAt := none }

/-- The same code, created at `10000-01-01T00:00:00Z`, one second after the
last instant of the year 9999. -/
def farFutureCode : PriceRuleDiscountCode :=
  { sampleCode with CreatedAt := some ⟨253402300800, 0, 0⟩ }

/-- Response headers that carry one `Link` value. -/
def linkHeaders (value : String) : Header :=
  fun key => if key = "Link" then [value] else []

/-- A parser for non-empty `Link` values that accepts exactly one value. -/
def sampleParseLink (linkHeader : String) : Except String Pagination :=
  if linkHeader = "<next-page>; rel=\"next\"" then .ok ⟨some "next-page", none⟩
  else .error "malformed link"

/-! ## The interface and the method set -/

/-- The Go types that occur in the signatures of `discount_code.go`. -/
inductive GoType where
  | int64
  | int
  | error
  | emptyInterface
  | named (name : String)
  | pointer (elem : GoType)
  | slice (elem : GoType)
  deriving DecidableEq, Repr

/-- A method signature: name, parameter types and result types, in order. -/
structure MethodSig where
  name : String
  params : List GoType
  results : List GoType
  deriving DecidableEq, Repr

/-- The method list of `type DiscountCodeService interface`, as declared. -/
def DiscountCodeService : List MethodSig :=
  [ ⟨"Create", [.int64, .named "PriceRuleDiscountCode"],
      [.pointer (.named "PriceRuleDiscountCode"), .error]⟩,
    ⟨"Update", [.int64, .named "PriceRuleDiscountCode"],
      [.pointer (.named "PriceRuleDiscountCode"), .error]⟩,
    ⟨"List", [.int64], [.slice (.named "PriceRuleDiscountCode"), .error]⟩,
    ⟨"ListWithPagination", [.emptyInterface],
      [.slice (.named "PriceRuleDiscountCode"), .pointer (.named "Pagination"), .error]⟩,
    ⟨"Count", [.emptyInterface], [.int, .error]⟩,
    ⟨"Get", [.int64, .int64], [.pointer (.named "PriceRuleDiscountCode"), .error]⟩,
    ⟨"Delete", [.int64, .int64], [.error]⟩ ]

/-- The methods declared on `*DiscountCodeServiceOp`, in source order. -/
def methodSetOfDiscountCodeServiceOp : List MethodSig :=
  [ ⟨"Create", [.int64, .named "PriceRuleDiscountCode"],
      [.pointer (.named "PriceRuleDiscountCode"), .error]⟩,
    ⟨"Update", [.int64, .named "PriceRuleDiscountCode"],
      [.pointer (.named "PriceRuleDiscountCode"), .error]⟩,
    ⟨"List", [.int64], [.slice (.named "PriceRuleDiscountCode"), .error]⟩,
    ⟨"ListWithPagination", [.int64, .emptyInterface],
      [.slice (.named "PriceRuleDiscountCode"), .pointer (.named "Pagination"), .error]⟩,
    ⟨"Count", [.int64, .emptyInterface], [.int, .error]⟩,
    ⟨"Get", [.int64, .int64], [.pointer (.named "PriceRuleDiscountCode"), .error]⟩,
    ⟨"Delete", [.int64, .int64], [.error]⟩ ]

/-- The interface methods that a method set lacks: those for which it has no
method of the same name with identical parameter and result types. -/
def missingMethods (methodSet iface : List MethodSig) : List MethodSig :=
  iface.filter (fun m => !methodSet.contains m)

/-- Go's rule for `T implements I`: the method set of `T` holds every method of
`I`, with an identical signature. -/
def implements (methodSet iface : List MethodSig) : Bool :=
  (missingMethods methodSet iface).isEmpty

/-! ## JSON encoding of the request body -/

/-- A JSON document, as far as these structs need it.  `raw` holds the bytes a
`MarshalJSON` method returned, which the encoder copies as they are. -/
inductive JSON where
  | null
  | number (n : Int)
  | string (s : String)
  | raw (text : String)
  | object (members : List (String × JSON))

/-- The member `encoding/json` writes for a `*time.Time` field tagged
`omitempty`: none for the nil pointer, otherwise the bytes of `MarshalJSON`
under the tag name; the error of `MarshalJSON` makes the encoding fail. -/
def timeMember (key : String) : Option Time → Except MarshalError (List (String × JSON))
  | none => .ok []
  | some t => t.MarshalJSON.map (fun b => [(key, JSON.raw b)])

/-- The members `encoding/json` writes for a `PriceRuleDiscountCode`, read off
its struct tags: fields in declaration order, each under its tag name, and,
every tag being `omitempty`, a field left out when it is `0`, `""` or a nil
pointer.  The encoding fails with the error of the first timestamp that cannot
be marshalled. -/
def PriceRuleDiscountCode.members (dc : PriceRuleDiscountCode) :
    Except MarshalError (List (String × JSON)) :=
  match timeMember "created_at" dc.CreatedAt with
  | .error e => .error e
  | .ok created =>
    match timeMember "updated_at" dc.UpdatedAt with
    | .error e => .error e
    | .ok updated =>
      .ok ((if dc.ID = 0 then [] else [("id", JSON.number dc.ID)]) ++
        (if dc.PriceRuleID = 0 then [] else [("price_rule_id", JSON.number dc.PriceRuleID)]) ++
        (if dc.Code = "" then [] else [("code", JSON.string dc.Code)]) ++
        (if dc.UsageCount = 0 then [] else [("usage_count", JSON.number dc.UsageCount)]) ++
        created ++ updated)

/-- The result of `json.Marshal` on a `PriceRuleDiscountCode`: a document, or
the error of a timestamp. -/
def PriceRuleDiscountCode.marshal (dc : PriceRuleDiscountCode) : Except MarshalError JSON :=
  match dc.members with
  | .ok ms => .ok (JSON.object ms)
  | .error e => .error e

/-- The result of `json.Marshal` on a `DiscountCodeResource`: one member, `discount_code`
(its tag has no `omitempty`), `null` for a nil pointer; the error of the code it
holds makes the encoding fail. -/
def DiscountCodeResource.marshal (r : DiscountCodeResource) : Except MarshalError JSON :=
  match r.PriceRuleDiscountCode with
  | none => .ok (JSON.object [("discount_code", JSON.null)])
  | some dc =>
    match dc.marshal with
    | .ok doc => .ok (JSON.object [("discount_code", doc)])
    | .error e => .error e

mutual

/-- The compact text `encoding/json` writes for a document.  Member names are
written between double quotes as they are (the names used here are lower-case
letters and underscores, which the encoder never escapes); the escaping of a
string value, `quote`, is a parameter. -/
def JSON.render (quote : String → String) : JSON → String
  | .null => "null"
  | .number n => decimal n
  | .string s => quote s
  | .raw text => text
  | .object members => "\x7b" ++ JSON.renderMembers quote members ++ "\x7d"

/-- The members of an object, separated by commas. -/
def JSON.renderMembers (quote : String → String) : List (String × JSON) → String
  | [] => ""
  | [(k, v)] => "\"" ++ k ++ "\":" ++ JSON.render quote v
  | (k, v) :: m :: rest =>
    "\"" ++ k ++ "\":" ++ JSON.render quote v ++ "," ++ JSON.renderMembers quote (m :: rest)

end

/-- The zero value `PriceRuleDiscountCode{}`. -/
def PriceRuleDiscountCode.zero : PriceRuleDiscountCode :=
  { ID := 0, PriceRuleID := 0, Code := "", UsageCount := 0, CreatedAt := none, UpdatedAt := none }

/-! ## Decimal text is unambiguous -/

theorem digitVal_digitChar (k : Nat) (h : k < 10) : digitVal (Nat.digitChar k) = k := by
  interval_cases k <;> rfl

theorem digitChar_range (k : Nat) (h : k < 10) :
    '0' ≤ Nat.digitChar k ∧ Nat.digitChar k ≤ '9' := by
  interval_cases k <;> decide

theorem toDigitsCore_append (f : Nat) : ∀ (n : Nat) (ds : List Char),
    Nat.toDigitsCore 10 f n ds = Nat.toDigitsCore 10 f n [] ++ ds := by
  induction f with
  | zero => intro n ds; simp [Nat.toDigitsCore]
  | succ f ih =>
    intro n ds
    simp only [Nat.toDigitsCore]
    split
    · simp
    · rw [ih (n / 10) (Nat.digitChar (n % 10) :: ds), ih (n / 10) [Nat.digitChar (n % 10)]]
      simp

theorem ofDigits_snoc (l : List Char) (c : Char) :
    ofDigits (l ++ [c]) = 10 * ofDigits l + digitVal c := by
  simp [ofDigits, List.foldl_append]

theorem ofDigits_toDigitsCore (f : Nat) : ∀ n : Nat, n < f →
    ofDigits (Nat.toDigitsCore 10 f n []) = n := by
  induction f with
  | zero => intro n h; omega
  | succ f ih =>
    intro n h
    simp only [Nat.toDigitsCore]
    split
    · rename_i h0
      have hn : n % 10 = n := by omega
      have hd := digitVal_digitChar (n % 10) (Nat.mod_lt _ (by decide))
      simp only [ofDigits, List.foldl_cons, List.foldl_nil, Nat.mul_zero, Nat.zero_add, hd]
      exact hn
    · rename_i h0
      rw [toDigitsCore_append, ofDigits_snoc, ih (n / 10) (by omega),
        digitVal_digitChar (n % 10) (Nat.mod_lt _ (by decide))]
      omega

theorem ofDigits_toDigits (n : Nat) : ofDigits (Nat.toDigits 10 n) = n :=
  ofDigits_toDigitsCore (n + 1) n (Nat.lt_succ_self n)

theorem toDigitsCore_digits (f : Nat) : ∀ (n : Nat) (c : Char),
    c ∈ Nat.toDigitsCore 10 f n [] → '0' ≤ c ∧ c ≤ '9' := by
  induction f with
  | zero => intro n c h; simp [Nat.toDigitsCore] at h
  | succ f ih =>
    intro n c h
    simp only [Nat.toDigitsCore] at h
    split at h
    · simp only [List.mem_singleton] at h
      subst h
      exact digitChar_range _ (Nat.mod_lt _ (by decide))
    · rw [toDigitsCore_append] at h
      simp only [List.mem_append, List.mem_singleton] at h
      rcases h with h | h
      · exact ih _ _ h
      · subst h
        exact digitChar_range _ (Nat.mod_lt _ (by decide))

theorem toDigits_digits (n : Nat) (c : Char) (h : c ∈ Nat.toDigits 10 n) :
    '0' ≤ c ∧ c ≤ '9' :=
  toDigitsCore_digits _ _ _ h

theorem formatInt_numeric (i : Int) (c : Char) (h : c ∈ formatInt i) : isNumeric c := by
  unfold formatInt at h
  split at h
  · simp only [List.mem_cons] at h
    rcases h with h | h
    · exact Or.inl h
    · exact Or.inr (toDigits_digits _ _ h)
  · exact Or.inr (toDigits_digits _ _ h)

theorem formatInt_injective (i j : Int) (h : formatInt i = formatInt j) : i = j := by
  unfold formatInt at h
  have hminus : ∀ n : Nat, '-' ∉ Nat.toDigits 10 n := by
    intro n hm
    have := (toDigits_digits n '-' hm).1
    exact absurd this (by decide)
  split at h <;> split at h
  · simp only [List.cons.injEq, true_and] at h
    have := congrArg ofDigits h
    rw [ofDigits_toDigits, ofDigits_toDigits] at this
    omega
  · exact absurd (h ▸ List.mem_cons_self _ _) (hminus _)
  · exact absurd (h ▸ List.mem_cons_self _ _) (hminus _)
  · have := congrArg ofDigits h
    rw [ofDigits_toDigits, ofDigits_toDigits] at this
    omega

theorem append_sep_unique (a : Char) : ∀ (l₁ l₂ r₁ r₂ : List Char), a ∉ l₁ → a ∉ l₂ →
    l₁ ++ a :: r₁ = l₂ ++ a :: r₂ → l₁ = l₂ ∧ r₁ = r₂ := by
  intro l₁
  induction l₁ with
  | nil =>
    intro l₂ r₁ r₂ _ h₂ h
    cases l₂ with
    | nil => simpa using h
    | cons b l₂ =>
      simp only [List.nil_append, List.cons_append, List.cons.injEq] at h
      exact absurd (h.1 ▸ List.mem_cons_self _ _) h₂
  | cons b l₁ ih =>
    intro l₂ r₁ r₂ h₁ h₂ h
    cases l₂ with
    | nil =>
      simp only [List.nil_append, List.cons_append, List.cons.injEq] at h
      exact absurd (h.1 ▸ List.mem_cons_self _ _) h₁
    | cons b' l₂ =>
      simp only [List.cons_append, List.cons.injEq] at h
      have := ih l₂ r₁ r₂ (fun hm => h₁ (List.mem_cons_of_mem _ hm))
        (fun hm => h₂ (List.mem_cons_of_mem _ hm)) h.2
      exact ⟨by rw [h.1, this.1], this.2⟩

/-! ## The three path shapes -/

theorem sprintf_collection (p : Int) :
    Sprintf (discountCodeBasePath ++ ".json") [p] =
      "price_rules/" ++ decimal p ++ "/discount_codes.json" := by
  apply String.ext
  simp only [String.data_append]
  rfl

theorem sprintf_item (p d : Int) :
    Sprintf (discountCodeBasePath ++ "/%d.json") [p, d] =
      "price_rules/" ++ decimal p ++ "/discount_codes/" ++ decimal d ++ ".json" := by
  apply String.ext
  simp only [String.data_append, List.append_assoc]
  rfl

theorem sprintf_count (p : Int) :
    Sprintf (discountCodeBasePath ++ "/count.json") [p] =
      "price_rules/" ++ decimal p ++ "/discount_codes/count.json" := by
  apply String.ext
  simp only [String.data_append]
  rfl

/-! ## Paths do not collide -/

theorem formatInt_no_slash (i : Int) : '/' ∉ formatInt i := by
  intro h
  rcases formatInt_numeric i '/' h with h | h
  · exact absurd h (by decide)
  · exact absurd h.1 (by decide)

theorem item_data (p d : Int) :
    (Sprintf (discountCodeBasePath ++ "/%d.json") [p, d]).data =
      "price_rules/".data ++ (formatInt p ++ '/' ::
        ("discount_codes/".data ++ (formatInt d ++ ".json".data))) := by
  rfl

theorem collection_data (p : Int) :
    (Sprintf (discountCodeBasePath ++ ".json") [p]).data =
      "price_rules/".data ++ (formatInt p ++ '/' :: "discount_codes.json".data) := by
  rfl

theorem count_data (p : Int) :
    (Sprintf (discountCodeBasePath ++ "/count.json") [p]).data =
      "price_rules/".data ++ (formatInt p ++ '/' :: "discount_codes/count.json".data) := by
  rfl

/-- C10: path construction is unambiguous over all integer identifiers, the
negative ones included: two item paths are equal exactly when both identifiers
are equal, two collection paths exactly when the price-rule identifiers are
equal, and no item path is a count path or a collection path. -/
theorem paths_unambiguous (p p' c c' : Int) :
    (Sprintf (discountCodeBasePath ++ "/%d.json") [p, c] =
        Sprintf (discountCodeBasePath ++ "/%d.json") [p', c'] ↔ p = p' ∧ c = c') ∧
      (Sprintf (discountCodeBasePath ++ ".json") [p] =
        Sprintf (discountCodeBasePath ++ ".json") [p'] ↔ p = p') ∧
      Sprintf (discountCodeBasePath ++ "/%d.json") [p, c] ≠
        Sprintf (discountCodeBasePath ++ "/count.json") [p'] ∧
      Sprintf (discountCodeBasePath ++ "/%d.json") [p, c] ≠
        Sprintf (discountCodeBasePath ++ ".json") [p'] := by
  refine ⟨⟨?_, ?_⟩, ⟨?_, ?_⟩, ?_, ?_⟩
  · intro h
    have h := congrArg String.data h
    rw [item_data, item_data] at h
    have h := List.append_cancel_left h
    obtain ⟨hp, hr⟩ := append_sep_unique '/' _ _ _ _ (formatInt_no_slash p)
      (formatInt_no_slash p') h
    have hr := List.append_cancel_right (List.append_cancel_left hr)
    exact ⟨formatInt_injective _ _ hp, formatInt_injective _ _ hr⟩
  · rintro ⟨rfl, rfl⟩
    rfl
  · intro h
    have h := congrArg String.data h
    rw [collection_data, collection_data] at h
    have h := List.append_cancel_left h
    exact formatInt_injective _ _
      (append_sep_unique '/' _ _ _ _ (formatInt_no_slash p) (formatInt_no_slash p') h).1
  · rintro rfl
    rfl
  · intro h
    have h := congrArg String.data h
    rw [item_data, count_data] at h
    have h := List.append_cancel_left h
    obtain ⟨_, hr⟩ := append_sep_unique '/' _ _ _ _ (formatInt_no_slash p)
      (formatInt_no_slash p') h
    have hr : formatInt c ++ ".json".data = "count".data ++ ".json".data :=
      List.append_cancel_left hr
    have hr := List.append_cancel_right hr
    have hc : 'c' ∈ formatInt c := by rw [hr]; decide
    rcases formatInt_numeric c 'c' hc with h | h
    · exact absurd h (by decide)
    · exact absurd h.2 (by decide)
  · intro h
    have h := congrArg String.data h
    rw [item_data, collection_data] at h
    have h := List.append_cancel_left h
    obtain ⟨_, hr⟩ := append_sep_unique '/' _ _ _ _ (formatInt_no_slash p)
      (formatInt_no_slash p') h
    have hr : "discount_codes".data ++ ('/' :: (formatInt c ++ ".json".data)) =
        "discount_codes".data ++ ".json".data := hr
    have hr := List.append_cancel_left hr
    simp only [List.cons.injEq] at hr
    exact absurd hr.1 (by decide)

/-! ## Requests issued by each operation -/

section Requests

variable {ε ω σ : Type}

/-- C1: `Get(priceRuleID, discountCodeID)` issues exactly one client `Get`
to `price_rules/<priceRuleID>/discount_codes/<discountCodeID>.json` (so
`Get(42, 7)` uses `price_rules/42/discount_codes/7.json`); `Delete` issues the
client's `Delete` to that same path, and `Update(priceRuleID, code)` issues the
client's `Put` to the path with `code.ID` in the place of `discountCodeID`. -/
theorem item_path_of_get_delete_update (c : Client ε ω σ) (priceRuleID discountCodeID : Int)
    (dc : PriceRuleDiscountCode) (st : σ) (log : List (Request ω)) :
    let svc : DiscountCodeServiceOp ε ω (σ × List (Request ω)) := ⟨c.traced⟩
    let item : Int → Int → String := fun p d =>
      "price_rules/" ++ decimal p ++ "/discount_codes/" ++ decimal d ++ ".json"
    (svc.Get priceRuleID discountCodeID (st, log)).2.2 =
        log ++ [Request.Get (item priceRuleID discountCodeID) .discountCode none] ∧
      (svc.Delete priceRuleID discountCodeID (st, log)).2.2 =
        log ++ [Request.Delete (item priceRuleID discountCodeID)] ∧
      (svc.Update priceRuleID dc (st, log)).2.2 =
        log ++ [Request.Put (item priceRuleID dc.ID) (some ⟨some dc⟩) .discountCode] ∧
      (svc.Get 42 7 (st, log)).2.2 =
        log ++ [Request.Get "price_rules/42/discount_codes/7.json" .discountCode none] := by
  refine ⟨?_, ?_, ?_, ?_⟩
  · simp only [DiscountCodeServiceOp.Get, Client.traced, sprintf_item]
  · simp only [DiscountCodeServiceOp.Delete, Client.traced, sprintf_item]
  · simp only [DiscountCodeServiceOp.Update, Client.traced, sprintf_item]
  · simp only [DiscountCodeServiceOp.Get, Client.traced]
    rfl

/-- C2: `Create`, `List` and `ListWithPagination` issue their single request to
the collection path `price_rules/<priceRuleID>/discount_codes.json`: `Create`
through the client's `Post`, `List` through the client's `Get` with nil options,
`ListWithPagination` through the header-returning request with method `GET`,
no body and the caller's options value unchanged. -/
theorem collection_path_of_create_list (c : Client ε ω σ)
    (extractPagination : String → Option Pagination × Option ε) (priceRuleID : Int)
    (dc : PriceRuleDiscountCode) (options : Option ω) (st : σ) (log : List (Request ω)) :
    let svc : DiscountCodeServiceOp ε ω (σ × List (Request ω)) := ⟨c.traced⟩
    let collection : String := "price_rules/" ++ decimal priceRuleID ++ "/discount_codes.json"
    (svc.Create priceRuleID dc (st, log)).2.2 =
        log ++ [Request.Post collection (some ⟨some dc⟩) .discountCode] ∧
      (svc.List priceRuleID (st, log)).2.2 =
        log ++ [Request.Get collection .discountCodes none] ∧
      (svc.ListWithPagination extractPagination priceRuleID options (st, log)).2.2 =
        log ++ [Request.createAndDoGetHeaders "GET" collection none options .discountCodes] := by
  refine ⟨?_, ?_, ?_⟩
  · simp only [DiscountCodeServiceOp.Create, Client.traced, sprintf_collection]
  · simp only [DiscountCodeServiceOp.List, Client.traced, sprintf_collection]
  · simp only [DiscountCodeServiceOp.ListWithPagination, Client.traced, sprintf_collection]
    split
    · rfl
    · split <;> rfl

/-- C3: `Count(priceRuleID, options)` calls the client's `Count` exactly once,
with the path `price_rules/<priceRuleID>/discount_codes/count.json` and the same
options value, and returns that call's integer and error unchanged. -/
theorem count_delegates_to_client (c : Client ε ω σ) (priceRuleID : Int) (options : Option ω)
    (st : σ) (log : List (Request ω)) :
    let svc : DiscountCodeServiceOp ε ω (σ × List (Request ω)) := ⟨c.traced⟩
    let path : String := "price_rules/" ++ decimal priceRuleID ++ "/discount_codes/count.json"
    (svc.Count priceRuleID options (st, log)).2.2 = log ++ [Request.Count path options] ∧
      (svc.Count priceRuleID options (st, log)).1 = (c.Count path options st).1 ∧
      (svc.Count priceRuleID options (st, log)).2.1 = (c.Count path options st).2 ∧
      (DiscountCodeServiceOp.Count ⟨c⟩ priceRuleID options st) = c.Count path options st := by
  refine ⟨?_, ?_, ?_, ?_⟩ <;>
    simp only [DiscountCodeServiceOp.Count, Client.traced, sprintf_count]

/-- C4: when the header-returning GET fails with error `e`, or succeeds while
parsing the `Link` header value fails with error `e`, `ListWithPagination`
returns the nil sequence, the nil cursor and exactly `e`; otherwise it returns
the decoded sequence, the cursor parsed from the `Link` header and no error. -/
theorem listWithPagination_outcomes (c : Client ε ω σ)
    (extractPagination : String → Option Pagination × Option ε) (priceRuleID : Int)
    (options : Option ω) (st : σ) :
    let svc : DiscountCodeServiceOp ε ω σ := ⟨c⟩
    let r := c.createAndDoGetHeaders "GET"
      ("price_rules/" ++ decimal priceRuleID ++ "/discount_codes.json") none options
      .discountCodes newDiscountCodesResource st
    let resource : DiscountCodesResource := r.1.1
    let q := extractPagination (r.1.2.1.Get "Link")
    (∀ e, r.1.2.2 = some e →
        (svc.ListWithPagination extractPagination priceRuleID options st).1 =
          ([], none, some e)) ∧
      (∀ e, r.1.2.2 = none → q.2 = some e →
        (svc.ListWithPagination extractPagination priceRuleID options st).1 =
          ([], none, some e)) ∧
      (r.1.2.2 = none → q.2 = none →
        (svc.ListWithPagination extractPagination priceRuleID options st).1 =
          (resource.DiscountCodes, q.1, none)) := by
  refine ⟨?_, ?_, ?_⟩
  · intro e he
    simp only [DiscountCodeServiceOp.ListWithPagination, sprintf_collection, he]
  · intro e he hq
    simp only [DiscountCodeServiceOp.ListWithPagination, sprintf_collection, he, hq]
  · intro he hq
    simp only [DiscountCodeServiceOp.ListWithPagination, sprintf_collection, he, hq]

/-- The three outcomes of `ListWithPagination` on concrete clients: a failed
request, a `Link` value the parser rejects, and a `Link` value it accepts. -/
theorem listWithPagination_outcomes_witness :
    (DiscountCodeServiceOp.ListWithPagination (extractPagination sampleParseLink)
        ⟨cannedClient (some [sampleCode]) Header.empty (some "503") 0⟩ 42 none ()).1 =
        ([], none, some "503") ∧
      (DiscountCodeServiceOp.ListWithPagination (extractPagination sampleParseLink)
        ⟨cannedClient (some [sampleCode]) (linkHeaders "garbage") none 0⟩ 42 none ()).1 =
        ([], none, some "malformed link") ∧
      (DiscountCodeServiceOp.ListWithPagination (extractPagination sampleParseLink)
        ⟨cannedClient (some [sampleCode]) (linkHeaders "<next-page>; rel=\"next\"") none 0⟩
        42 none ()).1 = ([sampleCode], some ⟨some "next-page", none⟩, none) :=
  ⟨(listWithPagination_outcomes
      (cannedClient (some [sampleCode]) Header.empty (some "503") 0)
      (extractPagination sampleParseLink) 42 none ()).1 "503" rfl,
    (listWithPagination_outcomes
      (cannedClient (some [sampleCode]) (linkHeaders "garbage") none 0)
      (extractPagination sampleParseLink) 42 none ()).2.1 "malformed link" rfl (by decide),
    (listWithPagination_outcomes
      (cannedClient (some [sampleCode]) (linkHeaders "<next-page>; rel=\"next\"") none 0)
      (extractPagination sampleParseLink) 42 none ()).2.2 rfl (by decide)⟩

/-- C5: when the client's GET succeeds and `headers.Get("Link")` is the empty
string, `ListWithPagination` (with the `Link` parser of the spec) returns the
decoded sequence, the empty pagination cursor and a nil error. -/
theorem listWithPagination_without_link (c : Client ε ω σ)
    (parseLink : String → Except ε Pagination) (priceRuleID : Int) (options : Option ω) (st : σ)
    (hok : (c.createAndDoGetHeaders "GET"
      ("price_rules/" ++ decimal priceRuleID ++ "/discount_codes.json") none options
      .discountCodes newDiscountCodesResource st).1.2.2 = none)
    (hlink : (c.createAndDoGetHeaders "GET"
      ("price_rules/" ++ decimal priceRuleID ++ "/discount_codes.json") none options
      .discountCodes newDiscountCodesResource st).1.2.1.Get "Link" = "") :
    (DiscountCodeServiceOp.ListWithPagination (extractPagination parseLink) ⟨c⟩
        priceRuleID options st).1 =
      (DiscountCodesResource.DiscountCodes (c.createAndDoGetHeaders "GET"
        ("price_rules/" ++ decimal priceRuleID ++ "/discount_codes.json") none options
        .discountCodes newDiscountCodesResource st).1.1, some ⟨none, none⟩, none) := by
  simp only [DiscountCodeServiceOp.ListWithPagination, sprintf_collection, hok, hlink,
    extractPagination, if_true]

/-- A response without a `Link` header: the decoded code, the empty cursor and
no error. -/
theorem listWithPagination_without_link_witness :
    (DiscountCodeServiceOp.ListWithPagination (extractPagination sampleParseLink)
        ⟨cannedClient (some [sampleCode]) Header.empty none 0⟩ 42 none ()).1 =
      ([sampleCode], some ⟨none, none⟩, none) :=
  listWithPagination_without_link (cannedClient (some [sampleCode]) Header.empty none 0)
    sampleParseLink 42 none () rfl rfl

/-- C6: each of `Create`, `Update`, `List`, `Get` and `Delete` makes exactly
one call to the client (the log of calls grows by that one entry), returns
exactly the error that call returned, and returns the entity or sequence the
client left in the response envelope, which is nil (empty) when the client
left the envelope as it received it. -/
theorem one_call_and_its_error (c : Client ε ω σ) (priceRuleID discountCodeID : Int)
    (dc : PriceRuleDiscountCode) (st : σ) (log : List (Request ω)) :
    let svc : DiscountCodeServiceOp ε ω (σ × List (Request ω)) := ⟨c.traced⟩
    let collection : String := "price_rules/" ++ decimal priceRuleID ++ "/discount_codes.json"
    let item : Int → String := fun d =>
      "price_rules/" ++ decimal priceRuleID ++ "/discount_codes/" ++ decimal d ++ ".json"
    let post := c.Post collection (some ⟨some dc⟩) .discountCode newDiscountCodeResource st
    let put := c.Put (item dc.ID) (some ⟨some dc⟩) .discountCode newDiscountCodeResource st
    let list := c.Get collection .discountCodes newDiscountCodesResource none st
    let get := c.Get (item discountCodeID) .discountCode newDiscountCodeResource none st
    let delete := c.Delete (item discountCodeID) st
    (svc.Create priceRuleID dc (st, log) =
        ((DiscountCodeResource.PriceRuleDiscountCode post.1.1, post.1.2),
          (post.2, log ++ [Request.Post collection (some ⟨some dc⟩) .discountCode])) ∧
      svc.Update priceRuleID dc (st, log) =
        ((DiscountCodeResource.PriceRuleDiscountCode put.1.1, put.1.2),
          (put.2, log ++ [Request.Put (item dc.ID) (some ⟨some dc⟩) .discountCode])) ∧
      svc.List priceRuleID (st, log) =
        ((DiscountCodesResource.DiscountCodes list.1.1, list.1.2),
          (list.2, log ++ [Request.Get collection .discountCodes none])) ∧
      svc.Get priceRuleID discountCodeID (st, log) =
        ((DiscountCodeResource.PriceRuleDiscountCode get.1.1, get.1.2),
          (get.2, log ++ [Request.Get (item discountCodeID) .discountCode none])) ∧
      svc.Delete priceRuleID discountCodeID (st, log) =
        (delete.1, (delete.2, log ++ [Request.Delete (item discountCodeID)]))) ∧
    ((post.1.1 = newDiscountCodeResource → (svc.Create priceRuleID dc (st, log)).1.1 = none) ∧
      (put.1.1 = newDiscountCodeResource → (svc.Update priceRuleID dc (st, log)).1.1 = none) ∧
      (list.1.1 = newDiscountCodesResource → (svc.List priceRuleID (st, log)).1.1 = []) ∧
      (get.1.1 = newDiscountCodeResource →
        (svc.Get priceRuleID discountCodeID (st, log)).1.1 = none)) := by
  refine ⟨⟨?_, ?_, ?_, ?_, ?_⟩, ?_, ?_, ?_, ?_⟩
  · simp only [DiscountCodeServiceOp.Create, Client.traced, sprintf_collection]
  · simp only [DiscountCodeServiceOp.Update, Client.traced, sprintf_item]
  · simp only [DiscountCodeServiceOp.List, Client.traced, sprintf_collection]
  · simp only [DiscountCodeServiceOp.Get, Client.traced, sprintf_item]
  · simp only [DiscountCodeServiceOp.Delete, Client.traced, sprintf_item]
  · intro h
    simp only [DiscountCodeServiceOp.Create, Client.traced, sprintf_collection, h]
    rfl
  · intro h
    simp only [DiscountCodeServiceOp.Update, Client.traced, sprintf_item, h]
    rfl
  · intro h
    simp only [DiscountCodeServiceOp.List, Client.traced, sprintf_collection, h]
    rfl
  · intro h
    simp only [DiscountCodeServiceOp.Get, Client.traced, sprintf_item, h]
    rfl

/-- The five operations against a client that fails with `"404"` and decodes
nothing: each returns that error, a nil entity or sequence, and one logged
call. -/
theorem one_call_and_its_error_witness :
    DiscountCodeServiceOp.Create ⟨(cannedClient none Header.empty (some "404") 0).traced⟩
        42 sampleCode ((), []) =
        ((none, some "404"), ((), [Request.Post "price_rules/42/discount_codes.json"
          (some ⟨some sampleCode⟩) .discountCode])) ∧
      (DiscountCodeServiceOp.Create ⟨(cannedClient none Header.empty (some "404") 0).traced⟩
        42 sampleCode ((), [])).1.1 = none ∧
      (DiscountCodeServiceOp.Update ⟨(cannedClient none Header.empty (some "404") 0).traced⟩
        42 sampleCode ((), [])).1.1 = none ∧
      (DiscountCodeServiceOp.List ⟨(cannedClient none Header.empty (some "404") 0).traced⟩
        42 ((), [])).1.1 = [] ∧
      (DiscountCodeServiceOp.Get ⟨(cannedClient none Header.empty (some "404") 0).traced⟩
        42 7 ((), [])).1.1 = none :=
  ⟨(one_call_and_its_error (cannedClient none Header.empty (some "404") 0)
      42 7 sampleCode () []).1.1,
    (one_call_and_its_error (cannedClient none Header.empty (some "404") 0)
      42 7 sampleCode () []).2.1 rfl,
    (one_call_and_its_error (cannedClient none Header.empty (some "404") 0)
      42 7 sampleCode () []).2.2.1 rfl,
    (one_call_and_its_error (cannedClient none Header.empty (some "404") 0)
      42 7 sampleCode () []).2.2.2.1 rfl,
    (one_call_and_its_error (cannedClient none Header.empty (some "404") 0)
      42 7 sampleCode () []).2.2.2.2 rfl⟩

/-- C9 as stated fails, in both of its parts.  Against a client whose `Count`
answers `-1` without an error, `Count` returns `-1` and a nil error: a negative
integer, and not the number of codes `List` returns.  Against a client whose
`Count` answers `2` while its `Get` decodes one code, `Count` returns `2`
without an error and `List` returns one code. -/
theorem count_not_tied_to_list_counterexample :
    ((DiscountCodeServiceOp.Count ⟨cannedClient (some []) Header.empty none (-1)⟩
        42 none ()).1 = (-1, none) ∧
      (DiscountCodeServiceOp.List ⟨cannedClient (some []) Header.empty none (-1)⟩
        42 ()).1 = ([], none) ∧
      ¬ ((DiscountCodeServiceOp.Count ⟨cannedClient (some []) Header.empty none (-1)⟩
            42 none ()).1.2 = none →
          0 ≤ (DiscountCodeServiceOp.Count ⟨cannedClient (some []) Header.empty none (-1)⟩
            42 none ()).1.1 ∧
          (DiscountCodeServiceOp.Count ⟨cannedClient (some []) Header.empty none (-1)⟩
            42 none ()).1.1 =
            ((DiscountCodeServiceOp.List ⟨cannedClient (some []) Header.empty none (-1)⟩
              42 ()).1.1.length : Int))) ∧
    ((DiscountCodeServiceOp.Count ⟨cannedClient (some [sampleCode]) Header.empty none 2⟩
        42 none ()).1 = (2, none) ∧
      (DiscountCodeServiceOp.List ⟨cannedClient (some [sampleCode]) Header.empty none 2⟩
        42 ()).1 = ([sampleCode], none) ∧
      (DiscountCodeServiceOp.Count ⟨cannedClient (some [sampleCode]) Header.empty none 2⟩
        42 none ()).1.1 ≠
        ((DiscountCodeServiceOp.List ⟨cannedClient (some [sampleCode]) Header.empty none 2⟩
          42 ()).1.1.length : Int)) := by
  refine ⟨⟨rfl, rfl, ?_⟩, rfl, rfl, by decide⟩
  intro h
  exact absurd (h rfl).1 (by decide)

/-- C9, amended: for every client, `Count` returns exactly what the client's
`Count` returns for the count path and the given options (integer, error and
state), and `List` returns exactly the codes and the error of the client's `Get`
for the collection path with nil options.  The service adds no check of its
own: the integer `Count` returns is non-negative exactly when the client's is,
and equals the number of codes `List` returns exactly when the client's count
equals the number of codes its `Get` decodes. -/
theorem count_and_list_follow_the_client (c : Client ε ω σ) (priceRuleID : Int)
    (options : Option ω) (st : σ) :
    let svc : DiscountCodeServiceOp ε ω σ := ⟨c⟩
    let counted := c.Count ("price_rules/" ++ decimal priceRuleID ++ "/discount_codes/count.json")
      options st
    let listed := c.Get ("price_rules/" ++ decimal priceRuleID ++ "/discount_codes.json")
      .discountCodes newDiscountCodesResource none st
    svc.Count priceRuleID options st = counted ∧
      svc.List priceRuleID st =
        ((DiscountCodesResource.DiscountCodes listed.1.1, listed.1.2), listed.2) ∧
      (0 ≤ (svc.Count priceRuleID options st).1.1 ↔ 0 ≤ counted.1.1) ∧
      ((svc.Count priceRuleID options st).1.1 = ((svc.List priceRuleID st).1.1.length : Int) ↔
        counted.1.1 = ((DiscountCodesResource.DiscountCodes listed.1.1).length : Int)) := by
  have hcount : DiscountCodeServiceOp.Count ⟨c⟩ priceRuleID options st =
      c.Count ("price_rules/" ++ decimal priceRuleID ++ "/discount_codes/count.json")
        options st := by
    simp only [DiscountCodeServiceOp.Count, sprintf_count]
  have hlist : DiscountCodeServiceOp.List ⟨c⟩ priceRuleID st =
      ((DiscountCodesResource.DiscountCodes
          (c.Get ("price_rules/" ++ decimal priceRuleID ++ "/discount_codes.json")
            .discountCodes newDiscountCodesResource none st).1.1,
        (c.Get ("price_rules/" ++ decimal priceRuleID ++ "/discount_codes.json")
            .discountCodes newDiscountCodesResource none st).1.2),
        (c.Get ("price_rules/" ++ decimal priceRuleID ++ "/discount_codes.json")
            .discountCodes newDiscountCodesResource none st).2) := by
    simp only [DiscountCodeServiceOp.List, sprintf_collection]
  refine ⟨hcount, hlist, ?_, ?_⟩
  · rw [hcount]
  · rw [hcount, hlist]

/-- A client that counts one code and lists one code: `Count` returns `1`
without an error, a non-negative integer that is the length of `List`'s
result. -/
theorem count_and_list_follow_the_client_witness :
    (DiscountCodeServiceOp.Count ⟨cannedClient (some [sampleCode]) Header.empty none 1⟩
        42 none ()) = ((1, none), ()) ∧
      (0 : Int) ≤ (DiscountCodeServiceOp.Count
        ⟨cannedClient (some [sampleCode]) Header.empty none 1⟩ 42 none ()).1.1 ∧
      (DiscountCodeServiceOp.Count ⟨cannedClient (some [sampleCode]) Header.empty none 1⟩
        42 none ()).1.1 =
        ((DiscountCodeServiceOp.List ⟨cannedClient (some [sampleCode]) Header.empty none 1⟩
          42 ()).1.1.length : Int) :=
  ⟨(count_and_list_follow_the_client
      (cannedClient (some [sampleCode]) Header.empty none 1) 42 none ()).1,
    (count_and_list_follow_the_client
      (cannedClient (some [sampleCode]) Header.empty none 1) 42 none ()).2.2.1.mpr (by decide),
    (count_and_list_follow_the_client
      (cannedClient (some [sampleCode]) Header.empty none 1) 42 none ()).2.2.2.mpr rfl⟩

end Requests

/-! ## The declared interface -/

/-- C7 fails on the code: the method set of `*DiscountCodeServiceOp` lacks two
methods of `DiscountCodeService`.  The interface declares
`ListWithPagination(interface{})` and `Count(interface{})`, the type defines
both with a leading `int64` parameter; the other five signatures agree. -/
theorem discountCodeServiceOp_lacks_two_methods :
    implements methodSetOfDiscountCodeServiceOp DiscountCodeService = false ∧
      missingMethods methodSetOfDiscountCodeServiceOp DiscountCodeService =
        [ ⟨"ListWithPagination", [.emptyInterface],
            [.slice (.named "PriceRuleDiscountCode"), .pointer (.named "Pagination"), .error]⟩,
          ⟨"Count", [.emptyInterface], [.int, .error]⟩ ] ∧
      (methodSetOfDiscountCodeServiceOp.filter
          (fun m => m.name = "ListWithPagination" ∨ m.name = "Count")).map MethodSig.params =
        [[.int64, .emptyInterface], [.int64, .emptyInterface]] ∧
      methodSetOfDiscountCodeServiceOp.map MethodSig.name =
        DiscountCodeService.map MethodSig.name := by
  decide

/-! ## The request body -/

section Body

variable {ε ω σ : Type}

theorem timeMember_ok (key : String) (ot : Option Time)
    (h : ∀ t, ot = some t → ∃ b, t.MarshalJSON = .ok b) :
    ∃ m, timeMember key ot = .ok m ∧
      (ot = none → m = []) ∧
      (∀ t b, ot = some t → t.MarshalJSON = .ok b → m = [(key, JSON.raw b)]) := by
  cases ot with
  | none => exact ⟨[], rfl, fun _ => rfl, fun t b ht => (by cases ht)⟩
  | some t =>
    obtain ⟨b, hb⟩ := h t rfl
    refine ⟨[(key, JSON.raw b)], ?_, fun ht => (by cases ht), ?_⟩
    · simp only [timeMember, hb, Except.map]
    · intro t' b' ht hb'
      cases ht
      rw [hb] at hb'
      cases hb'
      rfl

theorem render_envelope (quote : String → String) (doc : JSON) :
    JSON.render quote (JSON.object [("discount_code", doc)]) =
      "\x7b\"discount_code\":" ++ JSON.render quote doc ++ "\x7d" := by
  apply String.ext
  simp only [JSON.render, JSON.renderMembers, String.data_append, List.append_assoc]
  rfl

theorem marshalJSON_ok_iff (t : Time) :
    (∃ b, t.MarshalJSON = .ok b) ↔
      (0 ≤ t.Year ∧ t.Year < 10000) ∧ (t.offset = 0 ∨ t.offset.natAbs / 3600 < 24) := by
  unfold Time.MarshalJSON
  by_cases hy : t.Year < 0 ∨ 10000 ≤ t.Year
  · rw [if_pos hy]
    constructor
    · rintro ⟨b, hb⟩
      cases hb
    · rintro ⟨⟨h0, h1⟩, -⟩
      omega
  · rw [if_neg hy]
    by_cases hz : t.offset ≠ 0 ∧ 24 ≤ t.offset.natAbs / 3600
    · rw [if_pos hz]
      constructor
      · rintro ⟨b, hb⟩
        cases hb
      · rintro ⟨-, h⟩
        omega
    · rw [if_neg hz]
      constructor
      · intro _
        refine ⟨by omega, ?_⟩
        by_cases h0 : t.offset = 0
        · exact Or.inl h0
        · exact Or.inr (by
            have := fun h => hz ⟨h0, h⟩
            omega)
      · intro _
        exact ⟨_, rfl⟩

theorem members_shape (id pr uc : Int) (code : String) (created updated : List (String × JSON))
    (hc : created = [] ∨ ∃ b, created = [("created_at", JSON.raw b)])
    (hu : updated = [] ∨ ∃ b, updated = [("updated_at", JSON.raw b)])
    (ms : List (String × JSON))
    (hms : ms = (if id = 0 then [] else [("id", JSON.number id)]) ++
      (if pr = 0 then [] else [("price_rule_id", JSON.number pr)]) ++
      (if code = "" then [] else [("code", JSON.string code)]) ++
      (if uc = 0 then [] else [("usage_count", JSON.number uc)]) ++ created ++ updated) :
    (ms.lookup "id" = (if id = 0 then none else some (JSON.number id)) ∧
      ms.lookup "price_rule_id" = (if pr = 0 then none else some (JSON.number pr)) ∧
      ms.lookup "code" = (if code = "" then none else some (JSON.string code)) ∧
      ms.lookup "usage_count" = (if uc = 0 then none else some (JSON.number uc)) ∧
      ms.lookup "created_at" = created.lookup "created_at" ∧
      ms.lookup "updated_at" = updated.lookup "updated_at") ∧
    ∀ k ∈ ms.map Prod.fst,
      k ∈ ["id", "price_rule_id", "code", "usage_count", "created_at", "updated_at"] := by
  subst hms
  rcases hc with rfl | ⟨b, rfl⟩ <;> rcases hu with rfl | ⟨b', rfl⟩ <;>
    by_cases h1 : id = 0 <;> by_cases h2 : pr = 0 <;> by_cases h3 : code = "" <;>
    by_cases h4 : uc = 0 <;> simp [List.lookup, h1, h2, h3, h4]

/-- C8 as stated fails: a discount code created in the year 10000 can be handed
to `Create`, which passes it to the client in the envelope, but the envelope has
no JSON serialisation: `Time.MarshalJSON` refuses the year and the encoding
fails, so the non-empty `created_at` field appears under no key. -/
theorem unmarshallable_timestamp_counterexample :
    farFutureCode.CreatedAt = some ⟨253402300800, 0, 0⟩ ∧
      Time.Year ⟨253402300800, 0, 0⟩ = 10000 ∧
      (DiscountCodeServiceOp.Create ⟨(cannedClient none Header.empty none 0).traced⟩
        42 farFutureCode ((), [])).2.2 =
        [Request.Post "price_rules/42/discount_codes.json"
          (some { PriceRuleDiscountCode := some farFutureCode }) .discountCode] ∧
      DiscountCodeResource.marshal { PriceRuleDiscountCode := some farFutureCode } =
        .error .yearOutOfRange ∧
      ¬ ∃ doc, DiscountCodeResource.marshal { PriceRuleDiscountCode := some farFutureCode } =
        .ok doc := by
  refine ⟨rfl, by decide, rfl, rfl, ?_⟩
  rintro ⟨doc, h⟩
  have h' : DiscountCodeResource.marshal { PriceRuleDiscountCode := some farFutureCode } =
      .error .yearOutOfRange := rfl
  rw [h'] at h
  cases h

/-- C8, amended: the body `Create` and `Update` hand to the client is the
singleton envelope holding exactly the caller's code.  When every non-nil
timestamp of the code can be marshalled, the envelope encodes as an object with
the single key `discount_code`; in the encoded code a field is present under its
key (`id`, `price_rule_id`, `code`, `usage_count`, `created_at`, `updated_at`)
exactly when it is not `0`, `""` or nil, no other key occurs, and the all-zero
code is written `{"discount_code":{}}`. -/
theorem request_body_is_envelope (c : Client ε ω σ) (priceRuleID : Int)
    (dc : PriceRuleDiscountCode) (st : σ) (log : List (Request ω)) (quote : String → String)
    (hc : ∀ t, dc.CreatedAt = some t → ∃ b, t.MarshalJSON = .ok b)
    (hu : ∀ t, dc.UpdatedAt = some t → ∃ b, t.MarshalJSON = .ok b) :
    ((DiscountCodeServiceOp.Create ⟨c.traced⟩ priceRuleID dc (st, log)).2.2 =
        log ++ [Request.Post ("price_rules/" ++ decimal priceRuleID ++ "/discount_codes.json")
          (some { PriceRuleDiscountCode := some dc }) .discountCode] ∧
      (DiscountCodeServiceOp.Update ⟨c.traced⟩ priceRuleID dc (st, log)).2.2 =
        log ++ [Request.Put ("price_rules/" ++ decimal priceRuleID ++ "/discount_codes/" ++
          decimal dc.ID ++ ".json") (some { PriceRuleDiscountCode := some dc }) .discountCode]) ∧
    (∃ ms, dc.members = .ok ms ∧
      DiscountCodeResource.marshal { PriceRuleDiscountCode := some dc } =
        .ok (JSON.object [("discount_code", JSON.object ms)]) ∧
      JSON.render quote (JSON.object [("discount_code", JSON.object ms)]) =
        "\x7b\"discount_code\":" ++ JSON.render quote (JSON.object ms) ++ "\x7d" ∧
      (ms.lookup "id" = (if dc.ID = 0 then none else some (JSON.number dc.ID)) ∧
        ms.lookup "price_rule_id" =
          (if dc.PriceRuleID = 0 then none else some (JSON.number dc.PriceRuleID)) ∧
        ms.lookup "code" = (if dc.Code = "" then none else some (JSON.string dc.Code)) ∧
        ms.lookup "usage_count" =
          (if dc.UsageCount = 0 then none else some (JSON.number dc.UsageCount))) ∧
      ((dc.CreatedAt = none → ms.lookup "created_at" = none) ∧
        (∀ t b, dc.CreatedAt = some t → t.MarshalJSON = .ok b →
          ms.lookup "created_at" = some (JSON.raw b)) ∧
        (dc.UpdatedAt = none → ms.lookup "updated_at" = none) ∧
        (∀ t b, dc.UpdatedAt = some t → t.MarshalJSON = .ok b →
          ms.lookup "updated_at" = some (JSON.raw b))) ∧
      (∀ k ∈ ms.map Prod.fst,
        k ∈ ["id", "price_rule_id", "code", "usage_count", "created_at", "updated_at"])) ∧
    PriceRuleDiscountCode.zero.members = .ok [] ∧
    (DiscountCodeResource.marshal
      { PriceRuleDiscountCode := some PriceRuleDiscountCode.zero }).map (JSON.render quote) =
      .ok "\x7b\"discount_code\":\x7b\x7d\x7d" := by
  obtain ⟨created, hcm, hcn, hcs⟩ := timeMember_ok "created_at" dc.CreatedAt hc
  obtain ⟨updated, hum, hun, hus⟩ := timeMember_ok "updated_at" dc.UpdatedAt hu
  have hcshape : created = [] ∨ ∃ b, created = [("created_at", JSON.raw b)] := by
    cases hca : dc.CreatedAt with
    | none => exact Or.inl (hcn hca)
    | some t =>
      obtain ⟨b, hb⟩ := hc t hca
      exact Or.inr ⟨b, hcs t b hca hb⟩
  have hushape : updated = [] ∨ ∃ b, updated = [("updated_at", JSON.raw b)] := by
    cases hua : dc.UpdatedAt with
    | none => exact Or.inl (hun hua)
    | some t =>
      obtain ⟨b, hb⟩ := hu t hua
      exact Or.inr ⟨b, hus t b hua hb⟩
  have hmem : dc.members = .ok ((if dc.ID = 0 then [] else [("id", JSON.number dc.ID)]) ++
      (if dc.PriceRuleID = 0 then [] else [("price_rule_id", JSON.number dc.PriceRuleID)]) ++
      (if dc.Code = "" then [] else [("code", JSON.string dc.Code)]) ++
      (if dc.UsageCount = 0 then [] else [("usage_count", JSON.number dc.UsageCount)]) ++
      created ++ updated) := by
    simp only [PriceRuleDiscountCode.members, hcm, hum]
  obtain ⟨hlook, hkeys⟩ := members_shape dc.ID dc.PriceRuleID dc.UsageCount dc.Code created
    updated hcshape hushape _ rfl
  refine ⟨⟨?_, ?_⟩, ⟨_, hmem, ?_, render_envelope quote _, ⟨hlook.1, hlook.2.1, hlook.2.2.1,
    hlook.2.2.2.1⟩, ⟨?_, ?_, ?_, ?_⟩, hkeys⟩, rfl, rfl⟩
  · simp only [DiscountCodeServiceOp.Create, Client.traced, sprintf_collection]
  · simp only [DiscountCodeServiceOp.Update, Client.traced, sprintf_item]
  · simp only [DiscountCodeResource.marshal, PriceRuleDiscountCode.marshal, hmem]
  · intro h
    rw [hlook.2.2.2.2.1, hcn h]
    rfl
  · intro t b ht hb
    rw [hlook.2.2.2.2.1, hcs t b ht hb]
    rfl
  · intro h
    rw [hlook.2.2.2.2.2, hun h]
    rfl
  · intro t b ht hb
    rw [hlook.2.2.2.2.2, hus t b ht hb]
    rfl

/-- The sample code, whose only timestamp is `2019-01-02T03:04:05Z`: its four
non-zero scalar fields and `created_at` are present, `updated_at` is not, and
the envelope is written as the expected text. -/
theorem request_body_is_envelope_witness :
    (∃ ms, sampleCode.members = .ok ms ∧
      ms.lookup "id" = some (JSON.number 7) ∧
      ms.lookup "created_at" = some (JSON.raw "\"2019-01-02T03:04:05Z\"") ∧
      ms.lookup "updated_at" = none) ∧
    (DiscountCodeResource.marshal { PriceRuleDiscountCode := some sampleCode }).map
        (JSON.render (fun s => "\"" ++ s ++ "\"")) =
      .ok ("\x7b\"discount_code\":\x7b\"id\":7,\"price_rule_id\":42,\"code\":\"SUMMER\"," ++
        "\"usage_count\":3,\"created_at\":\"2019-01-02T03:04:05Z\"\x7d\x7d") := by
  have h := (request_body_is_envelope (cannedClient none Header.empty none 0) 42 sampleCode ()
    [] (fun s => "\"" ++ s ++ "\"")
    (fun t ht => ⟨"\"2019-01-02T03:04:05Z\"", by cases ht; rfl⟩)
    (fun t ht => by cases ht)).2.1
  obtain ⟨ms, hms, -, -, hscalar, htime, -⟩ := h
  exact ⟨⟨ms, hms, hscalar.1, htime.2.1 _ _ rfl rfl, htime.2.2.1 rfl⟩, rfl⟩

end Body

end GoShopify
